import Mathlib

/-!
Verification of the shanten engine of the `mahjong` prototype.

The Python sources (`prototype/shanten.py`, `prototype/tiles.py`,
`prototype/playerhand.py`) are shallowly embedded here.

Tile model: the 34 tile kinds are the code points `U+1F000 .. U+1F021`
(`tiles.TILE_RANGE`); we represent a kind by its offset from `U+1F000`,
i.e. a value of `Fin 34`:
  * `0..3`   : winds (east, south, west, north),
  * `4..6`   : dragons (red, green, white),
  * `7..15`  : characters 1m..9m,
  * `16..24` : bamboos 1s..9s,
  * `25..33` : circles 1p..9p.
A `collections.Counter` of tiles becomes a function `Fin 34 → Nat`
(absent keys and explicit zero entries of a `Counter` both denote count 0,
and every operation the code performs is insensitive to that difference).
Failures (`raise ValueError`) are modelled with `Except String`.
-/

namespace Mahjong

abbrev Tile := Fin 34

/-- A hand: per-kind tile counts (`collections.Counter` over tile kinds). -/
abbrev Hand := Tile → Nat

/-- A counter over the nine ranks of one suit, as produced by
`tiles.convert_suit_to_number` (rank `r` is index `r - 1`). -/
abbrev Cnt9 := Fin 9 → Nat

/-- A counter over the seven honor kinds (offsets `0..6`). -/
abbrev Cnt7 := Fin 7 → Nat

section CounterAlgebra

variable {K : Type} [Fintype K] [DecidableEq K]

/-- Total number of tiles of a counter: `sum(counter.values())`. -/
def total (h : K → Nat) : Nat := ∑ k, h k

/-- The Python test `player_hand & meld == meld`: a `Counter` intersection
(per-kind `min`, positive entries only) equals `meld` exactly when every
count of `meld` is available in `player_hand`. -/
def containsCnt (h g : K → Nat) : Bool := decide (∀ k, g k ≤ h k)

/-- Counter subtraction `player_hand -= meld` (per-kind truncated
subtraction; in the code it is only executed when `containsCnt` holds,
so no truncation ever happens there). -/
def subCnt (h g : K → Nat) : K → Nat := fun k => h k - g k

/-- Counter intersection `a & b`: per-kind minimum. -/
def interCnt (h g : K → Nat) : K → Nat := fun k => min (h k) (g k)

/-- Per-kind sum of a list of counters (the multiset union of the groups
returned by `remove_melds` / `remove_pairs`). -/
def groupSum (l : List (K → Nat)) (k : K) : Nat := (l.map (fun g => g k)).sum

/-- Inner `while` loop shared by `shanten.remove_melds` (`c = 3`) and
`shanten.remove_pairs` (`c = 2`):

    while player_hand & meld == meld:
        player_hand -= meld
        remains -= c
        melds.append(meld)
        if remains < c:
            break

Returns the remaining hand, the remaining tile count and the removed
copies of `g`.  The loop is driven by `fuel`; the callers pass
`fuel = remains`, which strictly dominates the number of iterations the
Python loop can make (each iteration consumes `c ≥ 2` tiles of a group
actually contained in the hand, or stops). -/
def stripGroupAux (c : Nat) : Nat → (K → Nat) → Nat → (K → Nat) →
    ((K → Nat) × Nat × List (K → Nat))
  | 0, h, remains, _ => (h, remains, [])
  | fuel + 1, h, remains, g =>
    if containsCnt h g then
      let h2 := subCnt h g
      let r2 := remains - c
      if r2 < c then (h2, r2, [g])
      else
        let p := stripGroupAux c fuel h2 r2 g
        (p.1, p.2.1, g :: p.2.2)
    else (h, remains, [])

/-- Outer `for meld in all_melds` loop of `shanten.remove_melds` /
`shanten.remove_pairs`, including the early `break` once fewer than `c`
tiles remain.  Returns the removed groups in order and the final
(mutated) hand. -/
def removeGroupsAux (c : Nat) : List (K → Nat) → (K → Nat) → Nat →
    (List (K → Nat) × (K → Nat))
  | [], h, _ => ([], h)
  | g :: gs, h, remains =>
    let p := stripGroupAux c remains h remains g
    if p.2.1 < c then (p.2.2, p.1)
    else
      let q := removeGroupsAux c gs p.1 p.2.1
      (p.2.2 ++ q.1, q.2)

/-- `shanten.remove_melds(player_hand, all_melds)`.  The Python function
mutates `player_hand` in place and returns the tuple of removed melds;
here the pair (removed melds, mutated hand) is returned. -/
def remove_melds_full (player_hand : K → Nat) (all_melds : List (K → Nat)) :
    List (K → Nat) × (K → Nat) :=
  removeGroupsAux 3 all_melds player_hand (total player_hand)

/-- The value `shanten.remove_melds` returns to its caller. -/
def remove_melds (player_hand : K → Nat) (all_melds : List (K → Nat)) :
    List (K → Nat) :=
  (remove_melds_full player_hand all_melds).1

/-- `shanten.remove_pairs(player_hand, all_pairs)` (same loop with
threshold/step 2); returns (removed pairs, mutated hand). -/
def remove_pairs_full (player_hand : K → Nat) (all_pairs : List (K → Nat)) :
    List (K → Nat) × (K → Nat) :=
  removeGroupsAux 2 all_pairs player_hand (total player_hand)

/-- The value `shanten.remove_pairs` returns to its caller. -/
def remove_pairs (player_hand : K → Nat) (all_pairs : List (K → Nat)) :
    List (K → Nat) :=
  (remove_pairs_full player_hand all_pairs).1

end CounterAlgebra

/-- `Counter({i: 3})` on ranks, 0-based (`tiles._generate_all_melds_suit`). -/
def pung9 (i : Nat) : Cnt9 := fun j => if j.1 = i then 3 else 0

/-- `Counter([i, i+1, i+2])` on ranks, 0-based. -/
def chow9 (i : Nat) : Cnt9 :=
  fun j => if j.1 = i ∨ j.1 = i + 1 ∨ j.1 = i + 2 then 1 else 0

/-- `tiles.MELDS_NUMBER`: for ranks 1..9 (0-based 0..8) yield the Pung,
then the Chow starting there when it fits: 111, 123, 222, 234, …, 789,
888, 999. -/
def MELDS_NUMBER : List Cnt9 :=
  ((List.range 9).map (fun i =>
    [pung9 i] ++ (if i + 2 ≤ 8 then [chow9 i] else []))).flatten

/-- `Counter((i, i))` on ranks, 0-based (`tiles._generate_all_pairs_suit`). -/
def pair9 (i : Nat) : Cnt9 := fun j => if j.1 = i then 2 else 0

/-- `Counter((i, k))` with `i ≠ k` on ranks, 0-based. -/
def two9 (i k : Nat) : Cnt9 :=
  fun j => if j.1 = i then 1 else if j.1 = k then 1 else 0

/-- `tiles.PAIRS_NUMBER`: for each rank the simple pair `(i,i)`, the
serial pair `(i,i+1)` when it fits, and the separated pair `(i,i+2)`
when it fits, in that order. -/
def PAIRS_NUMBER : List Cnt9 :=
  ((List.range 9).map (fun i =>
    [pair9 i] ++ (if i < 8 then [two9 i (i + 1)] else [])
      ++ (if i < 7 then [two9 i (i + 2)] else []))).flatten

/-- `Counter({honor: 3})` (`tiles.MELDS_HONOR` member). -/
def pung7 (i : Nat) : Cnt7 := fun j => if j.1 = i then 3 else 0

/-- `Counter({honor: 2})` (`tiles.PAIRS_HONOR` member). -/
def pair7 (i : Nat) : Cnt7 := fun j => if j.1 = i then 2 else 0

/-- `tiles.MELDS_HONOR`: one Pung per honor kind. -/
def MELDS_HONOR : List Cnt7 := (List.range 7).map pung7

/-- `tiles.PAIRS_HONOR`: one pair per honor kind. -/
def PAIRS_HONOR : List Cnt7 := (List.range 7).map pair7

/-- `tiles.FILTER_CHARACTERS`: four copies of each character tile. -/
def FILTER_CHARACTERS : Hand := fun t => if 7 ≤ t.1 ∧ t.1 ≤ 15 then 4 else 0

/-- `tiles.FILTER_BAMBOOS`: four copies of each bamboo tile. -/
def FILTER_BAMBOOS : Hand := fun t => if 16 ≤ t.1 ∧ t.1 ≤ 24 then 4 else 0

/-- `tiles.FILTER_CIRCLES`: four copies of each circle tile. -/
def FILTER_CIRCLES : Hand := fun t => if 25 ≤ t.1 ∧ t.1 ≤ 33 then 4 else 0

/-- `tiles.FILTER_HONORS = FILTER_WINDS + FILTER_DRAGONS`: four copies of
each wind and dragon. -/
def FILTER_HONORS : Hand := fun t => if t.1 ≤ 6 then 4 else 0

/-- `tiles.THIRTEEN_ORPHANS = Counter(chain(TILE_TERMINALS,
TILE_RANGE_HONORS))`: one copy of each of the 13 terminal/honor kinds
(offsets 0..6 honors, 7/15 = 1m/9m, 16/24 = 1s/9s, 25/33 = 1p/9p). -/
def THIRTEEN_ORPHANS : Hand :=
  fun t => if t.1 ≤ 6 ∨ t.1 = 7 ∨ t.1 = 15 ∨ t.1 = 16 ∨ t.1 = 24 ∨
      t.1 = 25 ∨ t.1 = 33 then 1 else 0

/-- `tiles.convert_suit_to_number`, specialised to its call sites in
`count_shanten_std`: the argument is a hand already restricted (by `&`
with a suit filter) to the suit whose rank-1 tile has offset `first`
(7, 16 or 25), so the base-tile detection of the source always resolves
to `first` and its `ValueError` branches are unreachable; the result
maps 0-based rank `j` to the count of the tile at offset `first + j`. -/
def convert_suit_to_number (first : Nat) (p : Hand) : Cnt9 :=
  fun j => if h : first + j.1 < 34 then p ⟨first + j.1, h⟩ else 0

/-- Restriction of a hand to the seven honor kinds (the honor part
`hand_h = player_hand & FILTER_HONORS` of the source is a counter keyed
by honor tiles; we re-key it by the honor offsets `0..6`). -/
def restrict_honors (p : Hand) : Cnt7 := fun j => p ⟨j.1, by omega⟩

/-- `shanten.count_shanten_std`: shanten number of a hand toward the
standard 4-melds-1-pair form.  Raises (`Except.error`) unless the total
tile count is `3n + 1`; a single tile is trivial tenpai; otherwise the
hand is split into the three suits and the honors, melds are greedily
stripped from each group and pairs from each group's residue (the
source's `remove_melds` mutates the suit part in place, so the
subsequent `remove_pairs` sees the residue), and

    num_shanten = (num_tile - 1) // 3 * 2 - 2 * #melds - min(4, #pairs). -/
def count_shanten_std (player_hand : Hand) : Except String Int :=
  let num_tile := total player_hand
  if num_tile % 3 ≠ 1 then .error "the number of tiles muse be 3n + 1."
  else if num_tile = 1 then .ok 0
  else
    let part_m := convert_suit_to_number 7 (interCnt player_hand FILTER_CHARACTERS)
    let part_p := convert_suit_to_number 25 (interCnt player_hand FILTER_CIRCLES)
    let part_s := convert_suit_to_number 16 (interCnt player_hand FILTER_BAMBOOS)
    let rm := remove_melds_full part_m MELDS_NUMBER
    let rp := remove_melds_full part_p MELDS_NUMBER
    let rs := remove_melds_full part_s MELDS_NUMBER
    let pm := remove_pairs_full rm.2 PAIRS_NUMBER
    let pp := remove_pairs_full rp.2 PAIRS_NUMBER
    let ps := remove_pairs_full rs.2 PAIRS_NUMBER
    let hand_h := restrict_honors (interCnt player_hand FILTER_HONORS)
    let rh := remove_melds_full hand_h MELDS_HONOR
    let ph := remove_pairs_full rh.2 PAIRS_HONOR
    let num_melds := rm.1.length + rp.1.length + rs.1.length + rh.1.length
    let num_pairs := pm.1.length + pp.1.length + ps.1.length + ph.1.length
    .ok ((((num_tile - 1) / 3 * 2 : Nat) : Int) - 2 * (num_melds : Int) -
      min 4 (num_pairs : Int))

/-- `shanten.count_shanten_seven_pairs`: raises unless the hand has 13 or
14 tiles; otherwise `6 - npair` where `npair` is the number of tile
kinds held with count at least 2. -/
def count_shanten_seven_pairs (player_hand : Hand) : Except String Int :=
  if total player_hand ≠ 13 ∧ total player_hand ≠ 14 then
    .error "player_hand must be concealed"
  else
    let npair := (Finset.univ.filter (fun k => 2 ≤ player_hand k)).card
    .ok ((6 : Int) - (npair : Int))

/-- `shanten.count_shanten_13_orphans`: raises unless the hand has 13 or
14 tiles; otherwise with `orphans = player_hand & THIRTEEN_ORPHANS`,
`num_orphans = len(orphans)` (number of kinds with positive count) the
result is `12 - num_orphans` when `(player_hand - orphans) & orphans` is
non-empty (some orphan kind held at least twice) and `13 - num_orphans`
otherwise. -/
def count_shanten_13_orphans (player_hand : Hand) : Except String Int :=
  if total player_hand ≠ 13 ∧ total player_hand ≠ 14 then
    .error "player_hand must be concealed"
  else
    let orphans := interCnt player_hand THIRTEEN_ORPHANS
    let num_orphans := (Finset.univ.filter (fun k => 0 < orphans k)).card
    if ∃ k, 0 < interCnt (subCnt player_hand orphans) orphans k then
      .ok ((12 : Int) - (num_orphans : Int))
    else
      .ok ((13 : Int) - (num_orphans : Int))

/-- `shanten.count_shanten_naive`: minimum of the three shape evaluations
(computed in the order standard, seven pairs, thirteen orphans; the
first raised error propagates). -/
def count_shanten_naive (player_hand : Hand) : Except String Int := do
  let a ← count_shanten_std player_hand
  let b ← count_shanten_seven_pairs player_hand
  let c ← count_shanten_13_orphans player_hand
  pure (min a (min b c))

/-! Claim-side views of the four groups of a hand (three suits and the
honors) as plain restrictions of the count mapping; for hands whose
per-kind counts stay within the physical bound 4 they coincide with the
source's filter-and-convert route (proved below). -/

/-- Character (m) ranks of a hand, 0-based. -/
def charPart (h : Hand) : Cnt9 := fun j => h ⟨7 + j.1, by omega⟩

/-- Bamboo (s) ranks of a hand, 0-based. -/
def bambooPart (h : Hand) : Cnt9 := fun j => h ⟨16 + j.1, by omega⟩

/-- Circle (p) ranks of a hand, 0-based. -/
def circlePart (h : Hand) : Cnt9 := fun j => h ⟨25 + j.1, by omega⟩

/-- Honor kinds of a hand. -/
def honorPart (h : Hand) : Cnt7 := fun j => h ⟨j.1, by omega⟩

/-- Total number of melds the greedy strategy strips from the four groups
of a hand (the quantity `sum(len(melds) for melds in ...)` of
`count_shanten_std`). -/
def melds_stripped (h : Hand) : Nat :=
  (remove_melds_full (charPart h) MELDS_NUMBER).1.length +
    (remove_melds_full (circlePart h) MELDS_NUMBER).1.length +
    (remove_melds_full (bambooPart h) MELDS_NUMBER).1.length +
    (remove_melds_full (honorPart h) MELDS_HONOR).1.length

/-- Total number of pairs/partial groups the greedy strategy strips from
the residues the meld pass leaves in the four groups (the quantity
`sum(len(pairs) for pairs in ...)` of `count_shanten_std`; the source's
`remove_melds` mutates each suit part in place, so `remove_pairs` indeed
runs on the residue). -/
def pairs_stripped (h : Hand) : Nat :=
  (remove_pairs_full (remove_melds_full (charPart h) MELDS_NUMBER).2
      PAIRS_NUMBER).1.length +
    (remove_pairs_full (remove_melds_full (circlePart h) MELDS_NUMBER).2
      PAIRS_NUMBER).1.length +
    (remove_pairs_full (remove_melds_full (bambooPart h) MELDS_NUMBER).2
      PAIRS_NUMBER).1.length +
    (remove_pairs_full (remove_melds_full (honorPart h) MELDS_HONOR).2
      PAIRS_HONOR).1.length

/-- Hand construction helper for concrete instances: per-kind counts from
an explicit (offset, count) list. -/
def handOf (l : List (Nat × Nat)) : Hand :=
  fun t => ((l.filter (fun p => p.1 = t.1)).map Prod.snd).sum

/-- The doctest hand `3899m3457p88s南白発` (13 tiles). -/
def handA : Hand :=
  handOf [(9, 1), (14, 1), (15, 2), (27, 1), (28, 1), (29, 1), (31, 1),
    (23, 2), (1, 1), (6, 1), (5, 1)]

/-- The empty hand. -/
def handEmpty : Hand := fun _ => 0

/-- A single east wind. -/
def handOne : Hand := handOf [(0, 1)]

/-- All thirteen terminal/honor kinds held exactly once (13 tiles). -/
def handOrphans : Hand := THIRTEEN_ORPHANS

/-- Number of tile kinds held with at least two copies. -/
def pair_kinds (h : Hand) : Nat := (Finset.univ.filter (fun k => 2 ≤ h k)).card

/-- Number of distinct thirteen-orphans target kinds held at least once. -/
def orphan_kinds_held (h : Hand) : Nat :=
  (Finset.univ.filter (fun k => 0 < THIRTEEN_ORPHANS k ∧ 0 < h k)).card

/-- Some thirteen-orphans target kind is held at least twice. -/
def has_orphan_duplicate (h : Hand) : Prop :=
  ∃ k, 0 < THIRTEEN_ORPHANS k ∧ 2 ≤ h k

instance (h : Hand) : Decidable (has_orphan_duplicate h) :=
  decidable_of_iff (∃ k, 0 < THIRTEEN_ORPHANS k ∧ 2 ≤ h k) Iff.rfl

/-- `melds.DiscardedBy`: seat of the player whose discard was claimed. -/
inductive DiscardedBy where
  | left
  | center
  | right
deriving DecidableEq

/-- Exposed meld objects of `melds.py`: `Chow` carries its tile list,
`Pung` and `Kong` carry one tile kind; `Kong` subclasses `Pung` in the
source.  The concealment flag and the discarding seat (absent for a
concealed Kong) are carried along. -/
inductive ExposedMeld where
  | chow (tileinfo : List Tile) (concealed : Bool)
  | pung (tileinfo : Tile) (concealed : Bool) (discarded_by : Option DiscardedBy)
  | kong (tileinfo : Tile) (concealed : Bool) (discarded_by : Option DiscardedBy)
deriving DecidableEq

/-- `playerhand.PlayerHand` state: the concealed counter and the exposed
melds (claimable-tile caches are recomputed functions here). -/
structure PlayerHand where
  concealed : Hand
  exposed : List ExposedMeld

/-- `PlayerHand.is_concealed`: `sum(self.concealed_part.values()) == 13`. -/
def is_concealed (ph : PlayerHand) : Bool := total ph.concealed == 13

/-- `PlayerHand.update_shanten`: always evaluates the standard shanten of
the concealed part; evaluates the seven-pairs and thirteen-orphans
shanten only when the hand is concealed, else leaves them `None`. -/
def update_shanten (ph : PlayerHand) :
    Except String (Int × Option Int × Option Int) := do
  let std ← count_shanten_std ph.concealed
  if is_concealed ph then
    let s7 ← count_shanten_seven_pairs ph.concealed
    let s13 ← count_shanten_13_orphans ph.concealed
    pure (std, some s7, some s13)
  else
    pure (std, none, none)

/-- The `PlayerHand.shanten` property over the cached triple: the standard
value when not concealed, otherwise `min(std, s7, s13)`; `none` models the
crash `min` would raise on the (unreachable after `update_shanten`)
`None` caches. -/
def shanten_value (ph : PlayerHand) (cache : Int × Option Int × Option Int) :
    Option Int :=
  if is_concealed ph = false then some cache.1
  else
    match cache.2.1, cache.2.2 with
    | some a, some b => some (min cache.1 (min a b))
    | _, _ => none

/-- `update_shanten` followed by reading the `shanten` property. -/
def playerhand_shanten (ph : PlayerHand) : Except String (Option Int) := do
  let c ← update_shanten ph
  pure (shanten_value ph c)

/-- Tiles of the exposed melds that are `Pung` instances in the source's
`isinstance(meld, Pung)` sense (`Kong` included, as a subclass). -/
def exposed_pung_tiles (ms : List ExposedMeld) : List Tile :=
  ms.filterMap (fun m => match m with
    | .pung t _ _ => some t
    | .kong t _ _ => some t
    | .chow _ _ => none)

/-- `PlayerHand.update_claimable_tiles_kong`: the stored claimable set is
the set of kinds held with exactly 3 or 4 copies.  The source then
evaluates `claimable_kong.union(...)` over the exposed Pung tiles (the
added-Kong case of its comment) but never assigns the result -
`set.union` returns a new set and mutates nothing - so those tiles do not
enter the stored set. -/
def update_claimable_tiles_kong (ph : PlayerHand) : Finset Tile :=
  let claimable_kong := Finset.univ.filter
    (fun t => ph.concealed t = 3 ∨ ph.concealed t = 4)
  let _union_result :=
    claimable_kong ∪ (exposed_pung_tiles ph.exposed).toFinset
  claimable_kong

/-- The concealed part `479m378p568s白` of the added-Kong example in
`PlayerHand.commit_kong` (10 tiles, no triple). -/
def handKongBug : Hand :=
  handOf [(10, 1), (13, 1), (15, 1), (27, 1), (31, 1), (32, 1), (20, 1),
    (21, 1), (23, 1), (6, 1)]

/-- That concealed part together with an exposed Pung of the east wind. -/
def phKongBug : PlayerHand :=
  ⟨handKongBug, [ExposedMeld.pung 0 false (some DiscardedBy.center)]⟩

/-- The doctest hand `9m66s2p発発発` of `update_claimable_tiles_kong`. -/
def handKong3 : Hand := handOf [(15, 1), (21, 2), (26, 1), (5, 3)]

/-- Replacement of one copy of `x` by one copy of `y` (the claimed tile
exchange). -/
def exchange (h : Hand) (x y : Tile) : Hand :=
  fun k => if k = x then h k - 1 else if k = y then h k + 1 else h k

/-- The Pung of 2m as a count mapping. -/
def meld2m : Hand := fun t => if t.1 = 8 then 3 else 0

/-- 13-tile hand `223344m149p99p147s`-style: `223344m`, `1p 4p 9p 9p`,
`1s 4s 7s`. -/
def hand8 : Hand :=
  handOf [(8, 2), (9, 2), (10, 2), (25, 1), (28, 1), (33, 2), (16, 1),
    (19, 1), (22, 1)]

/-- `hand8` after exchanging one 9p for a 2m. -/
def hand8x : Hand := exchange hand8 33 8

/-- Caller-state view of `count_shanten_std`: the returned value together
with the content of the caller's counter after the call.  In the source
the caller's `player_hand` is only read (`sum(...)`, `&`); the in-place
`-=` mutations inside `remove_melds` / `remove_pairs` hit the fresh
counters produced by `&` / `convert_suit_to_number` (the `part_*` and
`hand_h` locals), never the argument, so the caller's counter comes back
unchanged. -/
def count_shanten_std_state (player_hand : Hand) : Except String Int × Hand :=
  (count_shanten_std player_hand, player_hand)

/-- Caller-state view of `count_shanten_seven_pairs` (the source only
reads `player_hand.values()`). -/
def count_shanten_seven_pairs_state (player_hand : Hand) :
    Except String Int × Hand :=
  (count_shanten_seven_pairs player_hand, player_hand)

/-- Caller-state view of `count_shanten_13_orphans` (the source builds
fresh counters with `&` and `-`; no in-place operation touches the
argument). -/
def count_shanten_13_orphans_state (player_hand : Hand) :
    Except String Int × Hand :=
  (count_shanten_13_orphans player_hand, player_hand)

/-- Caller-state view of `count_shanten_naive`, threading the caller's
counter through the three evaluations it performs on the same object. -/
def count_shanten_naive_state (player_hand : Hand) :
    Except String Int × Hand :=
  let s1 := count_shanten_std_state player_hand
  let s2 := count_shanten_seven_pairs_state s1.2
  let s3 := count_shanten_13_orphans_state s2.2
  (do
    let a ← s1.1
    let b ← s2.1
    let c ← s3.1
    pure (min a (min b c)), s3.2)

section CounterLemmas

variable {K : Type} [Fintype K] [DecidableEq K]

theorem groupSum_nil (k : K) : groupSum ([] : List (K → Nat)) k = 0 := rfl

theorem groupSum_cons (g : K → Nat) (l : List (K → Nat)) (k : K) :
    groupSum (g :: l) k = g k + groupSum l k := rfl

theorem groupSum_append (l₁ l₂ : List (K → Nat)) (k : K) :
    groupSum (l₁ ++ l₂) k = groupSum l₁ k + groupSum l₂ k := by
  simp [groupSum]

/-- Each pass of the inner `while` loop subtracts the group only when the
hand still contains it, so tiles are conserved pointwise. -/
theorem stripGroupAux_conserve (c fuel : Nat) (h : K → Nat) (r : Nat)
    (g : K → Nat) (k : K) :
    (stripGroupAux c fuel h r g).1 k +
      groupSum (stripGroupAux c fuel h r g).2.2 k = h k := by
  induction fuel generalizing h r with
  | zero => simp [stripGroupAux, groupSum_nil]
  | succ n ih =>
    by_cases hc : containsCnt h g
    · have hle : g k ≤ h k := (of_decide_eq_true hc) k
      by_cases hr : r - c < c
      · simp only [stripGroupAux, hc, if_true, hr, groupSum_cons, groupSum_nil,
          subCnt]
        omega
      · have := ih (subCnt h g) (r - c)
        simp only [stripGroupAux, hc, if_true, hr, if_false, groupSum_cons]
        simp only [subCnt] at this ⊢
        omega
    · simp [stripGroupAux, hc, groupSum_nil]

/-- The inner loop only ever removes copies of its own group. -/
theorem stripGroupAux_mem (c fuel : Nat) (h : K → Nat) (r : Nat)
    (g g' : K → Nat) (hm : g' ∈ (stripGroupAux c fuel h r g).2.2) : g' = g := by
  induction fuel generalizing h r with
  | zero => simp [stripGroupAux] at hm
  | succ n ih =>
    by_cases hc : containsCnt h g
    · by_cases hr : r - c < c
      · simp only [stripGroupAux, hc, if_true, hr] at hm
        simpa using hm
      · simp only [stripGroupAux, hc, if_true, hr, if_false,
          List.mem_cons] at hm
        rcases hm with hm | hm
        · exact hm
        · exact ih _ _ hm
    · simp [stripGroupAux, hc] at hm

/-- Tile conservation for the full `for meld in all_melds` loop: the final
hand plus the multiset sum of the removed groups is the original hand. -/
theorem removeGroupsAux_conserve (c : Nat) (gs : List (K → Nat))
    (h : K → Nat) (r : Nat) (k : K) :
    (removeGroupsAux c gs h r).2 k +
      groupSum (removeGroupsAux c gs h r).1 k = h k := by
  induction gs generalizing h r with
  | nil => simp [removeGroupsAux, groupSum_nil]
  | cons g gs ih =>
    have hstrip := stripGroupAux_conserve c r h r g k
    by_cases hb : (stripGroupAux c r h r g).2.1 < c
    · simp only [removeGroupsAux, hb, if_true]
      omega
    · have := ih (stripGroupAux c r h r g).1 (stripGroupAux c r h r g).2.1
      simp only [removeGroupsAux, hb, if_false, groupSum_append]
      omega

/-- Every removed group is drawn from the canonical list. -/
theorem removeGroupsAux_mem (c : Nat) (gs : List (K → Nat)) (h : K → Nat)
    (r : Nat) (g' : K → Nat) (hm : g' ∈ (removeGroupsAux c gs h r).1) :
    g' ∈ gs := by
  induction gs generalizing h r with
  | nil => simp [removeGroupsAux] at hm
  | cons g gs ih =>
    by_cases hb : (stripGroupAux c r h r g).2.1 < c
    · simp only [removeGroupsAux, hb, if_true] at hm
      exact (stripGroupAux_mem c r h r g g' hm) ▸ List.mem_cons_self g gs
    · simp only [removeGroupsAux, hb, if_false, List.mem_append] at hm
      rcases hm with hm | hm
      · exact (stripGroupAux_mem c r h r g g' hm) ▸ List.mem_cons_self g gs
      · exact List.mem_cons_of_mem _ (ih _ _ hm)

theorem sum_groupSum (l : List (K → Nat)) :
    ∑ k, groupSum l k = (l.map total).sum := by
  induction l with
  | nil => simp [groupSum_nil, total]
  | cons g t ih =>
    simp only [groupSum_cons, Finset.sum_add_distrib, ih, List.map_cons,
      List.sum_cons, total]

/-- Summing conservation over all kinds: when every canonical group holds
exactly `c` tiles, the loop removes `c` tiles per recorded group. -/
theorem removeGroupsAux_total (c : Nat) (gs : List (K → Nat)) (h : K → Nat)
    (r : Nat) (hg : ∀ g ∈ gs, total g = c) :
    total (removeGroupsAux c gs h r).2 +
      c * (removeGroupsAux c gs h r).1.length = total h := by
  have hcons : total (removeGroupsAux c gs h r).2 +
      ∑ k, groupSum (removeGroupsAux c gs h r).1 k = total h := by
    simp only [total, ← Finset.sum_add_distrib]
    exact Finset.sum_congr rfl fun k _ => removeGroupsAux_conserve c gs h r k
  rw [sum_groupSum] at hcons
  have hlen : ((removeGroupsAux c gs h r).1.map total).sum =
      c * (removeGroupsAux c gs h r).1.length := by
    have : ∀ x ∈ (removeGroupsAux c gs h r).1.map total, x = c := by
      intro x hx
      rcases List.mem_map.mp hx with ⟨g', hg', rfl⟩
      exact hg g' (removeGroupsAux_mem c gs h r g' hg')
    calc ((removeGroupsAux c gs h r).1.map total).sum
        = ((removeGroupsAux c gs h r).1.map total).length • c :=
          List.sum_eq_card_nsmul _ c this
      _ = c * (removeGroupsAux c gs h r).1.length := by
          simp [List.length_map, Nat.smul_one_eq_cast]
          ring
  omega

end CounterLemmas


theorem total_expand (h : Hand) : total h =
    h 0 + h 1 + h 2 + h 3 + h 4 + h 5 + h 6 + h 7 + h 8 + h 9 + h 10 +
    h 11 + h 12 + h 13 + h 14 + h 15 + h 16 + h 17 + h 18 + h 19 + h 20 +
    h 21 + h 22 + h 23 + h 24 + h 25 + h 26 + h 27 + h 28 + h 29 + h 30 +
    h 31 + h 32 + h 33 := by
  simp [total, Fin.sum_univ_castSucc]
  rfl

theorem honorPart_total (h : Hand) : total (honorPart h) =
    h 0 + h 1 + h 2 + h 3 + h 4 + h 5 + h 6 := by
  simp [total, Fin.sum_univ_castSucc]
  rfl

theorem charPart_total (h : Hand) : total (charPart h) =
    h 7 + h 8 + h 9 + h 10 + h 11 + h 12 + h 13 + h 14 + h 15 := by
  simp [total, Fin.sum_univ_castSucc]
  rfl

theorem bambooPart_total (h : Hand) : total (bambooPart h) =
    h 16 + h 17 + h 18 + h 19 + h 20 + h 21 + h 22 + h 23 + h 24 := by
  simp [total, Fin.sum_univ_castSucc]
  rfl

theorem circlePart_total (h : Hand) : total (circlePart h) =
    h 25 + h 26 + h 27 + h 28 + h 29 + h 30 + h 31 + h 32 + h 33 := by
  simp [total, Fin.sum_univ_castSucc]
  rfl

/-- The four groups partition the hand. -/
theorem total_split (h : Hand) : total h =
    total (honorPart h) + total (charPart h) + total (bambooPart h) +
      total (circlePart h) := by
  rw [total_expand, honorPart_total, charPart_total, bambooPart_total,
    circlePart_total]
  ring

theorem MELDS_NUMBER_total : ∀ g ∈ MELDS_NUMBER, total g = 3 := by
  intro g hg
  exact of_decide_eq_true (List.all_eq_true.mp
    (by decide : MELDS_NUMBER.all (fun g => decide (total g = 3)) = true) g hg)

theorem PAIRS_NUMBER_total : ∀ g ∈ PAIRS_NUMBER, total g = 2 := by
  intro g hg
  exact of_decide_eq_true (List.all_eq_true.mp
    (by decide : PAIRS_NUMBER.all (fun g => decide (total g = 2)) = true) g hg)

theorem MELDS_HONOR_total : ∀ g ∈ MELDS_HONOR, total g = 3 := by
  intro g hg
  exact of_decide_eq_true (List.all_eq_true.mp
    (by decide : MELDS_HONOR.all (fun g => decide (total g = 3)) = true) g hg)

theorem PAIRS_HONOR_total : ∀ g ∈ PAIRS_HONOR, total g = 2 := by
  intro g hg
  exact of_decide_eq_true (List.all_eq_true.mp
    (by decide : PAIRS_HONOR.all (fun g => decide (total g = 2)) = true) g hg)

/-- With all counts within the physical bound 4, the filter-and-convert
route of the source yields exactly the character restriction. -/
theorem part_char_eq (h : Hand) (hb : ∀ t, h t ≤ 4) :
    convert_suit_to_number 7 (interCnt h FILTER_CHARACTERS) = charPart h := by
  funext j
  have hj : j.1 < 9 := j.2
  simp only [convert_suit_to_number, charPart]
  rw [dif_pos (by omega : 7 + j.1 < 34)]
  simp only [interCnt, FILTER_CHARACTERS]
  rw [if_pos (by omega : 7 ≤ 7 + j.1 ∧ 7 + j.1 ≤ 15)]
  exact min_eq_left (hb _)

theorem part_circle_eq (h : Hand) (hb : ∀ t, h t ≤ 4) :
    convert_suit_to_number 25 (interCnt h FILTER_CIRCLES) = circlePart h := by
  funext j
  have hj : j.1 < 9 := j.2
  simp only [convert_suit_to_number, circlePart]
  rw [dif_pos (by omega : 25 + j.1 < 34)]
  simp only [interCnt, FILTER_CIRCLES]
  rw [if_pos (by omega : 25 ≤ 25 + j.1 ∧ 25 + j.1 ≤ 33)]
  exact min_eq_left (hb _)

theorem part_bamboo_eq (h : Hand) (hb : ∀ t, h t ≤ 4) :
    convert_suit_to_number 16 (interCnt h FILTER_BAMBOOS) = bambooPart h := by
  funext j
  have hj : j.1 < 9 := j.2
  simp only [convert_suit_to_number, bambooPart]
  rw [dif_pos (by omega : 16 + j.1 < 34)]
  simp only [interCnt, FILTER_BAMBOOS]
  rw [if_pos (by omega : 16 ≤ 16 + j.1 ∧ 16 + j.1 ≤ 24)]
  exact min_eq_left (hb _)

theorem part_honor_eq (h : Hand) (hb : ∀ t, h t ≤ 4) :
    restrict_honors (interCnt h FILTER_HONORS) = honorPart h := by
  funext j
  have hj : j.1 < 7 := j.2
  simp only [restrict_honors, honorPart, interCnt, FILTER_HONORS]
  rw [if_pos (by omega : j.1 ≤ 6)]
  exact min_eq_left (hb _)

/-- Evaluation of `count_shanten_std` on a well-formed hand whose size
passes the congruence check and is not the trivial single tile: the
result is the combination formula over the greedy strip counts. -/
theorem count_shanten_std_eval (h : Hand) (hb : ∀ t, h t ≤ 4)
    (hm : total h % 3 = 1) (h1 : total h ≠ 1) :
    count_shanten_std h = .ok ((((total h - 1) / 3 * 2 : Nat) : Int) -
      2 * (melds_stripped h : Int) - min 4 (pairs_stripped h : Int)) := by
  simp only [count_shanten_std]
  rw [if_neg (not_not_intro hm), if_neg h1]
  rw [part_char_eq h hb, part_circle_eq h hb, part_bamboo_eq h hb,
    part_honor_eq h hb]
  rfl

theorem remove_melds_full_total {K : Type} [Fintype K] [DecidableEq K]
    (p : K → Nat) (gs : List (K → Nat)) (hg : ∀ g ∈ gs, total g = 3) :
    total (remove_melds_full p gs).2 + 3 * (remove_melds_full p gs).1.length =
      total p :=
  removeGroupsAux_total 3 gs p (total p) hg

theorem remove_pairs_full_total {K : Type} [Fintype K] [DecidableEq K]
    (p : K → Nat) (gs : List (K → Nat)) (hg : ∀ g ∈ gs, total g = 2) :
    total (remove_pairs_full p gs).2 + 2 * (remove_pairs_full p gs).1.length =
      total p :=
  removeGroupsAux_total 2 gs p (total p) hg

/-- The greedy strip never claims more tiles than the hand holds: three
per meld and two per pair fit within the hand's total. -/
theorem strip_budget (h : Hand) :
    3 * melds_stripped h + 2 * pairs_stripped h ≤ total h := by
  have a1 := remove_melds_full_total (charPart h) MELDS_NUMBER MELDS_NUMBER_total
  have a2 := remove_melds_full_total (circlePart h) MELDS_NUMBER MELDS_NUMBER_total
  have a3 := remove_melds_full_total (bambooPart h) MELDS_NUMBER MELDS_NUMBER_total
  have a4 := remove_melds_full_total (honorPart h) MELDS_HONOR MELDS_HONOR_total
  have b1 := remove_pairs_full_total
    (remove_melds_full (charPart h) MELDS_NUMBER).2 PAIRS_NUMBER PAIRS_NUMBER_total
  have b2 := remove_pairs_full_total
    (remove_melds_full (circlePart h) MELDS_NUMBER).2 PAIRS_NUMBER PAIRS_NUMBER_total
  have b3 := remove_pairs_full_total
    (remove_melds_full (bambooPart h) MELDS_NUMBER).2 PAIRS_NUMBER PAIRS_NUMBER_total
  have b4 := remove_pairs_full_total
    (remove_melds_full (honorPart h) MELDS_HONOR).2 PAIRS_HONOR PAIRS_HONOR_total
  have hsplit := total_split h
  simp only [melds_stripped, pairs_stripped]
  omega

/-- Success of `count_shanten_std` under the size congruence. -/
theorem count_shanten_std_ok (h : Hand) (hm : total h % 3 = 1) :
    ∃ v, count_shanten_std h = .ok v := by
  by_cases h1 : total h = 1
  · exact ⟨0, by simp only [count_shanten_std]
                 rw [if_neg (not_not_intro hm), if_pos h1]⟩
  · exact ⟨_, by simp only [count_shanten_std]
                 rw [if_neg (not_not_intro hm), if_neg h1]⟩

/-- Success of `count_shanten_seven_pairs` on 13/14-tile hands. -/
theorem count_shanten_seven_pairs_ok (h : Hand)
    (hs : total h = 13 ∨ total h = 14) :
    ∃ v, count_shanten_seven_pairs h = .ok v := by
  refine ⟨(6 : Int) - ((Finset.univ.filter (fun k => 2 ≤ h k)).card : Int), ?_⟩
  simp only [count_shanten_seven_pairs]
  rw [if_neg (by omega : ¬(total h ≠ 13 ∧ total h ≠ 14))]

/-- Success of `count_shanten_13_orphans` on 13/14-tile hands. -/
theorem count_shanten_13_orphans_ok (h : Hand)
    (hs : total h = 13 ∨ total h = 14) :
    ∃ v, count_shanten_13_orphans h = .ok v := by
  simp only [count_shanten_13_orphans]
  rw [if_neg (by omega : ¬(total h ≠ 13 ∧ total h ≠ 14))]
  split
  · exact ⟨_, rfl⟩
  · exact ⟨_, rfl⟩

/-- C10: `remove_melds` (and likewise `remove_pairs`) removes a group only
while the remaining counts still contain it, so no per-kind count ever
becomes negative (the guarded truncated subtraction is always exact, which
is certified by the conservation equation holding over `Nat` addition),
and on return the residual mapping plus the multiset sum of the returned
groups equals the original hand, for every count mapping and every group
list — suit-rank counters and honor counters alike. -/
theorem claim_c10 :
    (∀ (h : Cnt9) (gs : List Cnt9) (k : Fin 9),
      (remove_melds_full h gs).2 k + groupSum (remove_melds_full h gs).1 k = h k) ∧
    (∀ (h : Cnt9) (gs : List Cnt9) (k : Fin 9),
      (remove_pairs_full h gs).2 k + groupSum (remove_pairs_full h gs).1 k = h k) ∧
    (∀ (h : Cnt7) (gs : List Cnt7) (k : Fin 7),
      (remove_melds_full h gs).2 k + groupSum (remove_melds_full h gs).1 k = h k) ∧
    (∀ (h : Cnt7) (gs : List Cnt7) (k : Fin 7),
      (remove_pairs_full h gs).2 k + groupSum (remove_pairs_full h gs).1 k = h k) :=
  ⟨fun h gs k => removeGroupsAux_conserve 3 gs h (total h) k,
   fun h gs k => removeGroupsAux_conserve 2 gs h (total h) k,
   fun h gs k => removeGroupsAux_conserve 3 gs h (total h) k,
   fun h gs k => removeGroupsAux_conserve 2 gs h (total h) k⟩

/-- C1: for every hand with per-kind counts in [0,4] whose total `n`
satisfies `n % 3 = 1` and `n ≥ 4`, `count_shanten_std` returns
`2*((n-1)//3) - 2*melds - min(4, pairs)` where `melds` and `pairs` are the
numbers of groups stripped greedily (canonical list order,
repeat-while-contained) from the four groups, pairs from the meld
residues. -/
theorem claim_c1 (h : Hand) (hb : ∀ t, h t ≤ 4) (hm : total h % 3 = 1)
    (hn : 4 ≤ total h) :
    count_shanten_std h = .ok (((total h - 1) / 3 * 2 : Nat) -
      2 * (melds_stripped h : Int) - min 4 (pairs_stripped h : Int)) :=
  count_shanten_std_eval h hb hm (by omega)

theorem claim_c1_witness :
    (∀ t, handA t ≤ 4) ∧ total handA % 3 = 1 ∧ 4 ≤ total handA ∧
    count_shanten_std handA = .ok (((total handA - 1) / 3 * 2 : Nat) -
      2 * (melds_stripped handA : Int) - min 4 (pairs_stripped handA : Int)) :=
  ⟨by decide, by decide, by decide,
   claim_c1 handA (by decide) (by decide) (by decide)⟩

/-- C2: `count_shanten_std` fails with the invalid-size error exactly when
the total count is not `1 mod 3` and returns 0 on a single tile;
`count_shanten_seven_pairs` and `count_shanten_13_orphans` fail exactly
when the total is neither 13 nor 14; under the respective size
precondition each function returns a value and raises nothing. -/
theorem claim_c2 (h : Hand) :
    (total h % 3 ≠ 1 →
      count_shanten_std h = .error "the number of tiles muse be 3n + 1.") ∧
    (total h % 3 = 1 → ∃ v, count_shanten_std h = .ok v) ∧
    (total h = 1 → count_shanten_std h = .ok 0) ∧
    (total h ≠ 13 ∧ total h ≠ 14 →
      count_shanten_seven_pairs h = .error "player_hand must be concealed" ∧
      count_shanten_13_orphans h = .error "player_hand must be concealed") ∧
    ((total h = 13 ∨ total h = 14) →
      (∃ v, count_shanten_seven_pairs h = .ok v) ∧
      (∃ v, count_shanten_13_orphans h = .ok v)) := by
  refine ⟨?_, count_shanten_std_ok h, ?_, ?_, ?_⟩
  · intro hne
    simp only [count_shanten_std]
    rw [if_pos hne]
  · intro h1
    have hm : total h % 3 = 1 := by omega
    simp only [count_shanten_std]
    rw [if_neg (not_not_intro hm), if_pos h1]
  · intro hsz
    constructor
    · simp only [count_shanten_seven_pairs]
      rw [if_pos hsz]
    · simp only [count_shanten_13_orphans]
      rw [if_pos hsz]
  · intro hs
    exact ⟨count_shanten_seven_pairs_ok h hs, count_shanten_13_orphans_ok h hs⟩

theorem claim_c2_witness :
    count_shanten_std handEmpty = .error "the number of tiles muse be 3n + 1." ∧
    (∃ v, count_shanten_std handA = .ok v) ∧
    count_shanten_std handOne = .ok 0 ∧
    (count_shanten_seven_pairs handEmpty = .error "player_hand must be concealed" ∧
      count_shanten_13_orphans handEmpty = .error "player_hand must be concealed") ∧
    ((∃ v, count_shanten_seven_pairs handA = .ok v) ∧
      (∃ v, count_shanten_13_orphans handA = .ok v)) :=
  ⟨(claim_c2 handEmpty).1 (by decide),
   (claim_c2 handA).2.1 (by decide),
   (claim_c2 handOne).2.2.1 (by decide),
   (claim_c2 handEmpty).2.2.2.1 (by decide),
   (claim_c2 handA).2.2.2.2 (Or.inl (by decide))⟩

/-- C3: on a 13/14-tile hand `count_shanten_seven_pairs` returns `6` minus
the number of distinct kinds held with count ≥ 2; a kind with 3 or 4
copies contributes exactly one (flattening such a count to 2 leaves the
pair count unchanged). -/
theorem claim_c3 (h : Hand) (hs : total h = 13 ∨ total h = 14) :
    count_shanten_seven_pairs h = .ok ((6 : Int) - (pair_kinds h : Int)) ∧
    (∀ k : Tile, 2 ≤ h k → pair_kinds (Function.update h k 2) = pair_kinds h) := by
  constructor
  · simp only [count_shanten_seven_pairs, pair_kinds]
    rw [if_neg (by omega : ¬(total h ≠ 13 ∧ total h ≠ 14))]
  · intro k hk
    unfold pair_kinds
    congr 1
    apply Finset.filter_congr
    intro j _
    rcases eq_or_ne j k with rfl | hne
    · simp [Function.update_same, hk]
    · simp [Function.update_noteq hne]

theorem claim_c3_witness :
    (total handA = 13 ∨ total handA = 14) ∧
    count_shanten_seven_pairs handA = .ok ((6 : Int) - (pair_kinds handA : Int)) ∧
    (∀ k : Tile, 2 ≤ handA k →
      pair_kinds (Function.update handA k 2) = pair_kinds handA) :=
  ⟨Or.inl (by decide), claim_c3 handA (Or.inl (by decide))⟩

/-- C4: on a 13/14-tile hand `count_shanten_13_orphans` returns `12 - d`
when some target kind is held at least twice and `13 - d` otherwise,
where `d` is the number of distinct target kinds held. -/
theorem claim_c4 (h : Hand) (hs : total h = 13 ∨ total h = 14) :
    count_shanten_13_orphans h = .ok
      (if has_orphan_duplicate h then (12 : Int) - (orphan_kinds_held h : Int)
       else (13 : Int) - (orphan_kinds_held h : Int)) := by
  simp only [count_shanten_13_orphans]
  rw [if_neg (by omega : ¬(total h ≠ 13 ∧ total h ≠ 14))]
  have hcond : (∃ k, 0 < interCnt (subCnt h (interCnt h THIRTEEN_ORPHANS))
      (interCnt h THIRTEEN_ORPHANS) k) ↔ has_orphan_duplicate h := by
    apply exists_congr
    intro k
    simp only [interCnt, subCnt, THIRTEEN_ORPHANS, has_orphan_duplicate]
    split
    · omega
    · omega
  have hcard : (Finset.univ.filter (fun k => 0 < interCnt h THIRTEEN_ORPHANS k)).card =
      orphan_kinds_held h := by
    unfold orphan_kinds_held
    congr 1
    apply Finset.filter_congr
    intro k _
    simp only [interCnt, THIRTEEN_ORPHANS]
    split
    · omega
    · omega
  simp only [hcard]
  split
  · rename_i hd
    rw [if_pos (hcond.mp hd)]
  · rename_i hd
    rw [if_neg (fun hc => hd (hcond.mpr hc))]

theorem claim_c4_witness :
    total handOrphans = 13 ∧
    count_shanten_13_orphans handOrphans = .ok
      (if has_orphan_duplicate handOrphans
       then (12 : Int) - (orphan_kinds_held handOrphans : Int)
       else (13 : Int) - (orphan_kinds_held handOrphans : Int)) ∧
    (¬ has_orphan_duplicate handOrphans ∧ orphan_kinds_held handOrphans = 13) :=
  ⟨by decide, claim_c4 handOrphans (Or.inl (by decide)), by decide⟩

/-- C7: on well-formed 13-tile hands `count_shanten_std` lands in
`[-1, 8]`; on well-formed 13/14-tile hands `count_shanten_seven_pairs`
lands in `[-1, 6]` and `count_shanten_13_orphans` in `[-1, 13]`. -/
theorem claim_c7 :
    (∀ h : Hand, (∀ t, h t ≤ 4) → total h = 13 →
      ∃ v, count_shanten_std h = .ok v ∧ -1 ≤ v ∧ v ≤ 8) ∧
    (∀ h : Hand, (∀ t, h t ≤ 4) → (total h = 13 ∨ total h = 14) →
      (∃ v, count_shanten_seven_pairs h = .ok v ∧ -1 ≤ v ∧ v ≤ 6) ∧
      (∃ v, count_shanten_13_orphans h = .ok v ∧ -1 ≤ v ∧ v ≤ 13)) := by
  constructor
  · intro h hb ht
    have heval := count_shanten_std_eval h hb (by omega) (by omega)
    have hbud := strip_budget h
    rw [ht] at heval hbud
    exact ⟨_, heval, by omega, by omega⟩
  · intro h hb hs
    constructor
    · have hp : 2 * pair_kinds h ≤ total h := by
        unfold pair_kinds
        calc 2 * (Finset.univ.filter (fun k => 2 ≤ h k)).card
            = ∑ _k ∈ Finset.univ.filter (fun k => 2 ≤ h k), 2 := by
              rw [Finset.sum_const, smul_eq_mul]
              ring
          _ ≤ ∑ k ∈ Finset.univ.filter (fun k => 2 ≤ h k), h k :=
              Finset.sum_le_sum (fun k hk => (Finset.mem_filter.mp hk).2)
          _ ≤ ∑ k, h k :=
              Finset.sum_le_sum_of_subset (Finset.subset_univ _)
          _ = total h := rfl
      refine ⟨(6 : Int) - (pair_kinds h : Int), ?_, by omega, by omega⟩
      simp only [count_shanten_seven_pairs, pair_kinds]
      rw [if_neg (by omega : ¬(total h ≠ 13 ∧ total h ≠ 14))]
    · have hd : (Finset.univ.filter
          (fun k => 0 < interCnt h THIRTEEN_ORPHANS k)).card ≤ 13 := by
        calc (Finset.univ.filter (fun k => 0 < interCnt h THIRTEEN_ORPHANS k)).card
            ≤ (Finset.univ.filter (fun k : Tile => 0 < THIRTEEN_ORPHANS k)).card := by
              apply Finset.card_le_card
              intro k hk
              simp only [Finset.mem_filter] at hk ⊢
              refine ⟨hk.1, ?_⟩
              have hmin := hk.2
              simp only [interCnt] at hmin
              omega
          _ = 13 := by decide
      simp only [count_shanten_13_orphans]
      rw [if_neg (by omega : ¬(total h ≠ 13 ∧ total h ≠ 14))]
      split
      · exact ⟨_, rfl, by omega, by omega⟩
      · exact ⟨_, rfl, by omega, by omega⟩

theorem claim_c7_witness :
    ((∀ t, handA t ≤ 4) ∧ total handA = 13) ∧
    (∃ v, count_shanten_std handA = .ok v ∧ -1 ≤ v ∧ v ≤ 8) ∧
    (∃ v, count_shanten_seven_pairs handA = .ok v ∧ -1 ≤ v ∧ v ≤ 6) ∧
    (∃ v, count_shanten_13_orphans handA = .ok v ∧ -1 ≤ v ∧ v ≤ 13) :=
  ⟨⟨by decide, by decide⟩,
   claim_c7.1 handA (by decide) (by decide),
   (claim_c7.2 handA (by decide) (Or.inl (by decide))).1,
   (claim_c7.2 handA (by decide) (Or.inl (by decide))).2⟩

/-- C5: the aggregated shanten of a player hand always computes the
standard shanten; it computes the seven-pairs and thirteen-orphans
shanten only when the hand is fully concealed (which per the source's
`is_concealed` means the concealed counter holds exactly 13 tiles, a size
in {13, 14}); otherwise those two are not computed at all; and it returns
the minimum over whichever were computed. -/
theorem claim_c5 (ph : PlayerHand) :
    (is_concealed ph = true →
      total ph.concealed = 13 ∧
      ∃ a b c, count_shanten_std ph.concealed = .ok a ∧
        count_shanten_seven_pairs ph.concealed = .ok b ∧
        count_shanten_13_orphans ph.concealed = .ok c ∧
        update_shanten ph = .ok (a, some b, some c) ∧
        playerhand_shanten ph = .ok (some (min a (min b c)))) ∧
    (is_concealed ph = false →
      update_shanten ph =
        (count_shanten_std ph.concealed).map (fun a => (a, none, none)) ∧
      playerhand_shanten ph =
        (count_shanten_std ph.concealed).map (fun a => some a)) := by
  constructor
  · intro hcon
    have htot : total ph.concealed = 13 := by simpa [is_concealed] using hcon
    obtain ⟨a, ha⟩ := count_shanten_std_ok ph.concealed (by omega)
    obtain ⟨b, hb⟩ := count_shanten_seven_pairs_ok ph.concealed (Or.inl htot)
    obtain ⟨c, hc⟩ := count_shanten_13_orphans_ok ph.concealed (Or.inl htot)
    have hupd : update_shanten ph = .ok (a, some b, some c) := by
      simp [update_shanten, ha, hb, hc, hcon, Bind.bind, Except.bind,
        Pure.pure, Except.pure]
    refine ⟨htot, a, b, c, ha, hb, hc, hupd, ?_⟩
    simp [playerhand_shanten, hupd, shanten_value, hcon]
  · intro hcon
    cases hstd : count_shanten_std ph.concealed with
    | ok a =>
      constructor
      · simp [update_shanten, hstd, hcon, Except.map]
      · have hupd : update_shanten ph = .ok (a, none, none) := by
          simp [update_shanten, hstd, hcon]
        simp [playerhand_shanten, hupd, shanten_value, hcon, hstd, Except.map]
    | error e =>
      constructor
      · simp [update_shanten, hstd, Except.map, Bind.bind, Except.bind]
      · simp [playerhand_shanten, update_shanten, hstd, Except.map,
          Bind.bind, Except.bind]

theorem claim_c5_witness :
    is_concealed ⟨handA, []⟩ = true ∧
    (total (PlayerHand.mk handA []).concealed = 13 ∧
      ∃ a b c, count_shanten_std (PlayerHand.mk handA []).concealed = .ok a ∧
        count_shanten_seven_pairs (PlayerHand.mk handA []).concealed = .ok b ∧
        count_shanten_13_orphans (PlayerHand.mk handA []).concealed = .ok c ∧
        update_shanten ⟨handA, []⟩ = .ok (a, some b, some c) ∧
        playerhand_shanten ⟨handA, []⟩ = .ok (some (min a (min b c)))) :=
  ⟨by decide, (claim_c5 ⟨handA, []⟩).1 (by decide)⟩

/-- C6 (failing-input evidence): with an exposed Pung of the east wind and
no east wind in the concealed part, the east wind is not in the computed
claimable-Kong set - the stored set is exactly the 3-or-4-copies filter,
the exposed-Pung disjunct of the claim never materialises because the
source discards the result of `set.union`.  The 3-copies disjunct itself
works (`発` with three concealed copies is claimable). -/
theorem claim_c6 :
    ExposedMeld.pung 0 false (some DiscardedBy.center) ∈ phKongBug.exposed ∧
    (0 : Tile) ∈ (exposed_pung_tiles phKongBug.exposed).toFinset ∧
    (0 : Tile) ∉ update_claimable_tiles_kong phKongBug ∧
    update_claimable_tiles_kong phKongBug = ∅ ∧
    (5 : Tile) ∈ update_claimable_tiles_kong ⟨handKong3, []⟩ := by decide

/-- C8 counterexample: exchanging one tile (a 9p) of the 13-tile `hand8`
for a 2m - a tile that completes the 2m Pung the hand was exactly one
tile away from - RAISES `count_shanten_std` from 3 to 4; the claimed
strict decrease (and even mere non-increase) fails. -/
theorem claim_c8_counterexample :
    total hand8 = 13 ∧
    (∀ t, hand8 t ≤ 4) ∧ (∀ t, hand8x t ≤ 4) ∧
    hand8x = exchange hand8 33 8 ∧
    hand8 33 = 2 ∧
    ¬ (∀ k, meld2m k ≤ hand8 k) ∧
    (∀ k, meld2m k ≤ hand8x k) ∧
    count_shanten_std hand8 = .ok 3 ∧
    count_shanten_std hand8x = .ok 4 :=
  ⟨by decide, by decide, by decide, rfl, by decide, by decide, by decide,
   rfl, rfl⟩

/-- C8 amended: across any two well-formed 13-tile hands - in particular a
hand and any one-tile exchange of it - the `count_shanten_std` values
differ by exactly the credit rules applied to the greedy strip counts the
algorithm actually finds: twice the change in stripped melds plus the
change in the 4-capped stripped-pair count.  The exchange need not lower
the value (and can raise it), because the added tile can change which
groups the fixed-order greedy pass strips. -/
theorem claim_c8_amended (h h2 : Hand) (hb : ∀ t, h t ≤ 4)
    (hb2 : ∀ t, h2 t ≤ 4) (ht : total h = 13) (ht2 : total h2 = 13) :
    ∃ v v2, count_shanten_std h = .ok v ∧ count_shanten_std h2 = .ok v2 ∧
      v2 - v = 2 * ((melds_stripped h : Int) - (melds_stripped h2 : Int)) +
        (min 4 (pairs_stripped h : Int) - min 4 (pairs_stripped h2 : Int)) := by
  have he1 := count_shanten_std_eval h hb (by omega) (by omega)
  have he2 := count_shanten_std_eval h2 hb2 (by omega) (by omega)
  rw [ht] at he1
  rw [ht2] at he2
  exact ⟨_, _, he1, he2, by push_cast; ring⟩

theorem claim_c8_amended_witness :
    ((∀ t, hand8 t ≤ 4) ∧ (∀ t, hand8x t ≤ 4) ∧ total hand8 = 13 ∧
      total hand8x = 13) ∧
    (∃ v v2, count_shanten_std hand8 = .ok v ∧
      count_shanten_std hand8x = .ok v2 ∧
      v2 - v = 2 * ((melds_stripped hand8 : Int) - (melds_stripped hand8x : Int)) +
        (min 4 (pairs_stripped hand8 : Int) -
          min 4 (pairs_stripped hand8x : Int))) :=
  ⟨⟨by decide, by decide, by decide, by decide⟩,
   claim_c8_amended hand8 hand8x (by decide) (by decide) (by decide) (by decide)⟩

/-- C9: each shanten evaluation leaves the caller's counter with exactly
the per-kind counts it had before the call (also through the chained
evaluation of `count_shanten_naive` on one shared counter), and the
result depends only on the per-kind counts of the input. -/
theorem claim_c9 (h : Hand) :
    (count_shanten_std_state h).2 = h ∧
    (count_shanten_seven_pairs_state h).2 = h ∧
    (count_shanten_13_orphans_state h).2 = h ∧
    (count_shanten_naive_state h).2 = h ∧
    (count_shanten_naive_state h).1 = count_shanten_naive h ∧
    (∀ h2 : Hand, (∀ k, h k = h2 k) →
      count_shanten_std h = count_shanten_std h2 ∧
      count_shanten_seven_pairs h = count_shanten_seven_pairs h2 ∧
      count_shanten_13_orphans h = count_shanten_13_orphans h2 ∧
      count_shanten_naive h = count_shanten_naive h2) := by
  refine ⟨rfl, rfl, rfl, ?_, ?_, ?_⟩
  · simp only [count_shanten_naive_state, count_shanten_std_state,
      count_shanten_seven_pairs_state, count_shanten_13_orphans_state]
  · simp only [count_shanten_naive_state, count_shanten_std_state,
      count_shanten_seven_pairs_state, count_shanten_13_orphans_state,
      count_shanten_naive]
  intro h2 hk
  have : h = h2 := funext hk
  subst this
  exact ⟨rfl, rfl, rfl, rfl⟩

theorem claim_c9_witness :
    (count_shanten_std_state handA).2 = handA ∧
    (count_shanten_seven_pairs_state handA).2 = handA ∧
    (count_shanten_13_orphans_state handA).2 = handA ∧
    (count_shanten_naive_state handA).2 = handA ∧
    (count_shanten_naive_state handA).1 = count_shanten_naive handA ∧
    (count_shanten_std handA = count_shanten_std handA ∧
      count_shanten_seven_pairs handA = count_shanten_seven_pairs handA ∧
      count_shanten_13_orphans handA = count_shanten_13_orphans handA ∧
      count_shanten_naive handA = count_shanten_naive handA) :=
  ⟨(claim_c9 handA).1, (claim_c9 handA).2.1, (claim_c9 handA).2.2.1,
   (claim_c9 handA).2.2.2.1, (claim_c9 handA).2.2.2.2.1,
   (claim_c9 handA).2.2.2.2.2 handA (fun _ => rfl)⟩

end Mahjong
